import Mathlib

/-!
Verification development for the Anti-Fraud_Platform repository.

The repository consists of a FastAPI backend (`single_agent.py` and the
checkpoint variants `single_as_multi`, `fraud_back-end`, `agent_executor`,
`get_prompt`, `webpage_api`) that forwards fraud-checking requests to an
LLM endpoint.  The pure helper functions and the module-level mutable
state of those files are embedded directly below.  The multi-role
orchestration core described by the specification (Proposition Tracker,
Task Dispatcher, Review Gate, Round Coordinator, Message Envelope
Validator, Orchestrator Facade) is not implemented as code in the
repository — it exists only as prompt narrative — so those components are
modelled from the specification's own words, each marked as such in its
doc comment.
-/

/-- Python's `filename.split('.')[-1]` over the character list: the
characters after the last dot, or the whole list when no dot occurs. -/
def splitDotLast (cs : List Char) : List Char :=
  cs.foldl (fun acc c => if c = '.' then [] else acc ++ [c]) []

/-- Python's `filename.split('.')[-1].lower()`: the lowercased text
after the last dot of the filename. -/
def extOf (filename : String) : String :=
  String.mk ((splitDotLast filename.toList).map Char.toLower)

namespace SingleAgent

/-- Embeds `MODEL_NAME` of `src/single_agent.py`. -/
def MODEL_NAME : String := "gemini-2.5-flash"

/-- Embeds the initial value of the module-level mutable global
`SYSTEM_PROMPT` of `src/single_agent.py` (lines 43-60). -/
def SYSTEM_PROMPT : String := "
你是一個專門的反詐騙偵測系統。你的任務是分析使用者提供的內容（文字、語音轉文字、圖片/截圖內容），判斷其潛在的詐騙風險，並以清晰、專業的 Markdown 格式輸出查核報告。

## 輸出格式要求:
1. **必須** 使用 Markdown 格式。
2. 報告開頭必須包含風險等級和一個總結性的標題。
3. 報告中必須包含「**內容分析摘要**」、「**判斷依據**」和「**您的行動 (防詐三步驟)**」這三個主要段落。
4. **判斷依據** 應涵蓋內容中的關鍵詞句、語氣、手法模式或圖片中的可疑元素。
5. **風險等級** 只能是以下三種之一: **嚴重風險 (🚨)**, **中等風險 (⚠️)**, **低風險 (✅)**.
6. 對於高度風險的詞彙，請使用 Markdown 的 **粗體** 標記。

## 風險判斷原則:
- **嚴重風險 (🚨):** 包含立即匯款、點擊不明連結、威脅性語氣、要求提供密碼/OTP、號稱高額回饋且具備極度時間急迫性等。
- **中等風險 (⚠️):** 語氣可疑、涉及金錢但缺乏細節、可能是釣魚訊息但無明顯惡意連結、非官方渠道要求驗證。
- **低風險 (✅):** 正常交易通知、純粹的產品推廣、無法判斷風險的簡短或模糊內容 (但應提醒用戶保持警惕)。

---
"

/-- Embeds `get_mime_type` of `src/single_agent.py` (lines 80-89):
the extension is the lowercased last component of splitting the filename
on dots; jpg/jpeg map to image/jpeg, png to image/png, every one of the
five audio extensions to the single string audio/wav, everything else to
application/octet-stream. -/
def get_mime_type (filename : String) : String :=
  let ext := extOf filename
  if ext = "jpg" ∨ ext = "jpeg" then "image/jpeg"
  else if ext = "png" then "image/png"
  else if ext = "wav" ∨ ext = "mp3" ∨ ext = "flac" ∨ ext = "m4a" ∨ ext = "webm" then
    "audio/wav"
  else "application/octet-stream"

/-- The module-level mutable state of `src/single_agent.py`: the global
`SYSTEM_PROMPT` that `update_prompt` reassigns and `check_scam_report`
reads at call time. -/
structure PromptState where
  SYSTEM_PROMPT : String
deriving DecidableEq, Repr

/-- Embeds the `/update_prompt` endpoint of `src/single_agent.py`
(lines 105-112): `global SYSTEM_PROMPT; SYSTEM_PROMPT = update.new_prompt`,
returning the new prompt length.  The state passing makes the Python
global-variable mutation explicit. -/
def update_prompt (_st : PromptState) (new_prompt : String) : PromptState × Nat :=
  ({ SYSTEM_PROMPT := new_prompt }, new_prompt.length)

/-- The request `check_scam_report` hands to
`client.models.generate_content` (lines 194-207): model name, content
list, and the `system_instruction` of the `GenerateContentConfig`. -/
structure GenerateRequest where
  model : String
  contents : List String
  system_instruction : String
deriving DecidableEq, Repr

/-- Embeds the text-only path of `check_scam_report` of
`src/single_agent.py` (lines 120-207, with `file = None` and `text`
given): `content_parts = [text]`, `user_prompt_text` is the fixed header
followed by the text line, `final_content = content_parts +
[user_prompt_text]`, and the config's `system_instruction` is the
current value of the global `SYSTEM_PROMPT` — read from the shared
mutable state at call time. -/
def check_scam_report_request (st : PromptState) (text : String) : GenerateRequest :=
  { model := MODEL_NAME
  , contents := [text,
      "請根據以下內容生成詐騙查核報告:\n\n" ++ "**[文字內容]**: " ++ text ++ "\n"]
  , system_instruction := st.SYSTEM_PROMPT }

end SingleAgent

namespace SingleAsMulti

/-- Embeds `get_mime_type` of
`src/.ipynb_checkpoints/single_as_multi-checkpoint.py` (lines 114-124).
It differs from the `single_agent.py` version in the audio branch: it
returns `"audio/" + ext`, preserving the actual extension. -/
def get_mime_type (filename : String) : String :=
  let ext := extOf filename
  if ext = "jpg" ∨ ext = "jpeg" then "image/jpeg"
  else if ext = "png" then "image/png"
  else if ext = "wav" ∨ ext = "mp3" ∨ ext = "flac" ∨ ext = "m4a" ∨ ext = "webm" then
    "audio/" ++ ext
  else "application/octet-stream"

end SingleAsMulti

namespace MimeClaim

/-- The claim's notion of extension: the lowercased text after the last
dot of the filename, with Python's `split('.')[-1]` reading — a filename
without a dot yields the whole (lowercased) filename. -/
def fileExt (filename : String) : String :=
  extOf filename

/-- The mime-type mapping exactly as the claim describes it for
`single_agent.py`: image/jpeg for jpg/jpeg, image/png for png, the fixed
string audio/wav for each of the five audio extensions, and
application/octet-stream otherwise. -/
def claimedMimeSingle (filename : String) : String :=
  let ext := fileExt filename
  if ext = "jpg" ∨ ext = "jpeg" then "image/jpeg"
  else if ext = "png" then "image/png"
  else if ext = "wav" ∨ ext = "mp3" ∨ ext = "flac" ∨ ext = "m4a" ∨ ext = "webm" then
    "audio/wav"
  else "application/octet-stream"

/-- The amended mapping for the `single_as_multi` checkpoint variant:
identical except that each audio extension is preserved as
`"audio/" + ext`. -/
def claimedMimeMulti (filename : String) : String :=
  let ext := fileExt filename
  if ext = "jpg" ∨ ext = "jpeg" then "image/jpeg"
  else if ext = "png" then "image/png"
  else if ext = "wav" ∨ ext = "mp3" ∨ ext = "flac" ∨ ext = "m4a" ∨ ext = "webm" then
    "audio/" ++ ext
  else "application/octet-stream"

end MimeClaim

namespace Core

/-- Embeds `worker_count` of
`src/.ipynb_checkpoints/get_prompt-checkpoint.py` (line 6): the fixed
size of the worker pool. -/
def worker_count : Nat := 5

/-- Modelled from the spec: the verdict vocabulary of §3
(`TRUE|FALSE|MIXED|UNDETERMINED|PENDING`); the repository states it only
inside prompt text, never as code. -/
inductive Verdict where
  | TRUE
  | FALSE
  | MIXED
  | UNDETERMINED
  | PENDING
deriving DecidableEq, Repr

/-- Modelled from the spec: the error taxonomy of §7; the repository has
no such error types in code. -/
inductive CoreError where
  | SchemaError (field : String)
  | ExtractionError
  | DispatchError
  | RevisionCapExceeded
  | RoundCapExceeded
deriving DecidableEq, Repr

/-- Modelled from the spec: a Claim (§3) is raw text plus zero or more
media-derived text descriptions. -/
structure Claim where
  text : String
  media : List String
deriving DecidableEq, Repr

/-- Modelled from the spec: a Proposition (§3) with identifier, text,
verdict and evidence references; each evidence entry is tagged with the
round that produced it. -/
structure Proposition where
  id : Nat
  text : String
  verdict : Verdict
  evidence : List (Nat × String)
deriving DecidableEq, Repr

/-- Modelled from the spec: the per-session cap on extracted
propositions (§3, §4.2; the prompt says "NO MORE THAN 5 PROPOSITIONS"). -/
def propositionCap : Nat := 5

/-- Modelled from the spec: the round cap (§3: "a session runs at most a
fixed cap of rounds (default 3)"). -/
def roundCap : Nat := 3

/-- Modelled from the spec: the revision cap of the Review Gate
(§4.4, default 2). -/
def revisionCap : Nat := 2

/-- Modelled from the spec: `extract` of the Proposition Tracker (§4.2),
absent from the repository's code.  Decomposition is pluggable
(parameter `decompose`); the cap (≤ 5) is enforced by truncation; an
empty claim text fails with `ExtractionError`.  Propositions receive
successive identifiers and start `PENDING` with no evidence. -/
def extract (decompose : String → List String) (c : Claim) :
    Except CoreError (List Proposition) :=
  if c.text = "" then .error .ExtractionError
  else .ok (((decompose c.text).take propositionCap).enum.map fun p =>
    { id := p.1, text := p.2, verdict := .PENDING, evidence := [] })

/-- Modelled from the spec: a Session (§3) holding the claim, the
proposition set fixed at extraction, and the set of (round,
propositionId) pairs whose findings have already been applied (the
idempotence key of `recordFinding`, §4.2). -/
structure Session where
  claim : Claim
  props : List Proposition
  recorded : List (Nat × Nat)
deriving DecidableEq, Repr

/-- Modelled from the spec: `recordFinding` of the Proposition Tracker
(§4.2), absent from the repository's code.  It appends evidence and
updates the tentative verdict of one proposition, keyed idempotently on
the (round, propositionId) pair: reapplying the same round's finding is
a no-op. -/
def recordFinding (round pid : Nat) (evidenceRefs : List String)
    (partialVerdict : Verdict) (s : Session) : Session :=
  if (round, pid) ∈ s.recorded then s
  else
    { s with
      props := s.props.map fun p =>
        if p.id = pid then
          { p with
            evidence := p.evidence ++ evidenceRefs.map (fun e => (round, e))
            verdict := partialVerdict }
        else p
      recorded := (round, pid) :: s.recorded }

/-- Modelled from the spec: the overall-verdict aggregation of
`finalVerdict` (§4.2), stated in the repository only as prompt
narrative.  Computed over Booleans: all `TRUE` wins first, then any
`FALSE`, then a `TRUE`/`UNDETERMINED` mixture, else `UNDETERMINED`. -/
def overallVerdict (vs : List Verdict) : Verdict :=
  if vs.all (· == Verdict.TRUE) then .TRUE
  else if vs.any (· == Verdict.FALSE) then .FALSE
  else if vs.all (fun v => v == Verdict.TRUE || v == Verdict.UNDETERMINED)
      && vs.any (· == Verdict.TRUE) then .MIXED
  else .UNDETERMINED

/-- Modelled from the spec: `finalVerdict() -> (OverallVerdict,
perPropositionVerdicts)` (§4.2). -/
def finalVerdict (vs : List Verdict) : Verdict × List Verdict :=
  (overallVerdict vs, vs)

/-- The aggregation rule exactly as the claim words it: all `TRUE` →
`TRUE`; any `FALSE` → `FALSE`; a mixture of `TRUE` and `UNDETERMINED`
with no `FALSE` → `MIXED`; every other case → `UNDETERMINED`.  Stated
declaratively, to be compared with the computational `overallVerdict`. -/
def overallVerdictClaim (vs : List Verdict) : Verdict :=
  if ∀ v ∈ vs, v = Verdict.TRUE then .TRUE
  else if ∃ v ∈ vs, v = Verdict.FALSE then .FALSE
  else if (∀ v ∈ vs, v = Verdict.TRUE ∨ v = Verdict.UNDETERMINED)
      ∧ (∃ v ∈ vs, v = Verdict.TRUE) ∧ (∃ v ∈ vs, v = Verdict.UNDETERMINED)
      ∧ ¬(∃ v ∈ vs, v = Verdict.FALSE) then .MIXED
  else .UNDETERMINED

/-- Modelled from the spec: one Task of the Task Dispatcher (§3, §4.3),
carrying its worker slot (1..N) and the identifier of the unresolved
proposition it covers. -/
structure Task where
  slot : Nat
  prop : Nat
deriving DecidableEq, Repr

/-- Modelled from the spec: the proposition the dispatcher assigns to
worker slot index `w` (0-based): unresolved propositions are dealt out
round-robin, so a proposition repeats only after every unresolved
proposition has been dealt once. -/
def assignedProp (unresolved : List Nat) (w : Nat) : Nat :=
  unresolved.getD (w % unresolved.length) 0

/-- Modelled from the spec: `planRound` of the Task Dispatcher (§4.3),
absent from the repository's code.  It fails with `DispatchError` when
there is no proposition to assign, and otherwise produces exactly `wc`
tasks, one per worker slot, covering the unresolved propositions
round-robin. -/
def planRound (wc : Nat) (unresolved : List Nat) : Except CoreError (List Task) :=
  if unresolved = [] then .error .DispatchError
  else .ok ((List.range wc).map fun w =>
    { slot := w + 1, prop := assignedProp unresolved w })

/-- Modelled from the spec: the reviewing collaborator's judgment on a
Submission (§3, §4.4): `APPROVE`, or `REVISE` with a structured issue
list. -/
inductive ReviewDecision where
  | APPROVE
  | REVISE (issues : List String)
deriving DecidableEq, Repr

/-- Modelled from the spec: the Review Gate's per-submission outcome
(§4.4): plain approval, forced approval carrying the unresolved issues,
or a revision request routed back to the worker. -/
inductive GateOutcome where
  | APPROVED
  | APPROVE_WITH_CAVEAT (issues : List String)
  | REVISION_REQUESTED (issues : List String)
deriving DecidableEq, Repr

/-- Modelled from the spec: one step of the Review Gate (§4.4), absent
from the repository's code.  State is the Task's revision count.  A
`REVISE` below the cap increments the count and requests revision; at
the cap the Gate overrides to a forced `APPROVE_WITH_CAVEAT` carrying
the unresolved issues instead of surfacing `RevisionCapExceeded`. -/
def reviewGateStep (cap revisions : Nat) (d : ReviewDecision) :
    Except CoreError (Nat × GateOutcome) :=
  match d with
  | .APPROVE => .ok (revisions, .APPROVED)
  | .REVISE issues =>
    if revisions < cap then .ok (revisions + 1, .REVISION_REQUESTED issues)
    else .ok (revisions, .APPROVE_WITH_CAVEAT issues)

/-- Modelled from the spec: the Review Gate applied to a whole sequence
of collaborator decisions for one Task, threading the revision count and
collecting the outcomes. -/
def reviewGateRun (cap revisions : Nat) (ds : List ReviewDecision) :
    Nat × List GateOutcome :=
  match ds with
  | [] => (revisions, [])
  | d :: rest =>
    match reviewGateStep cap revisions d with
    | .ok (r, o) =>
      let t := reviewGateRun cap r rest
      (t.1, o :: t.2)
    | .error _ => (revisions, [])

/-- Modelled from the spec: the Round Coordinator's loop (§4.5).  After
aggregating round `r` the session continues exactly when the coverage
oracle still reports unresolved or conflicting propositions and the
round cap is not yet reached; the result is the round at which the
coordinator reaches `FINALIZING`.  `fuel` bounds the recursion and is
instantiated with the cap itself. -/
def coordRun (cap : Nat) (oracle : Nat → Bool) (fuel r : Nat) : Nat :=
  match fuel with
  | 0 => r
  | fuel + 1 =>
    if oracle r ∧ r < cap then coordRun cap oracle fuel (r + 1) else r

/-- Modelled from the spec: the round at which a session starting in
round 1 reaches `FINALIZING` (§4.5, §8 Termination). -/
def finalizingRound (cap : Nat) (oracle : Nat → Bool) : Nat :=
  coordRun cap oracle cap 1

/-- Sum of `f` over `0, 1, ..., n-1`. -/
def sumUpTo (f : Nat → Nat) (n : Nat) : Nat :=
  ((List.range n).map f).sum

/-- Modelled from the spec: the total work of a session measured in
revision cycles — for every executed round, the revision count of each
of the `wc` worker slots in that round (§7: bounded by round cap ×
revision cap × worker count). -/
def sessionWork (cap wc : Nat) (oracle : Nat → Bool) (revs : Nat → Nat → Nat) : Nat :=
  sumUpTo (fun i => sumUpTo (fun w => revs (i + 1) (w + 1)) wc)
    (finalizingRound cap oracle)

/-- Modelled from the spec: the number of rounds a session actually
runs: none at all when extraction fails, otherwise the coordinator's
rounds up to `FINALIZING` (§7: `ExtractionError` aborts the session
immediately, no rounds run). -/
def sessionRounds (decompose : String → List String) (oracle : Nat → Bool)
    (c : Claim) : Nat :=
  match extract decompose c with
  | .error _ => 0
  | .ok _ => finalizingRound roundCap oracle

/-- Modelled from the spec: the Orchestrator Facade's result (§4.6, §7).
Extraction failure propagates as the terminal session error; otherwise
the session finalizes through `finalVerdict` over the per-proposition
verdicts, `assign` abstracting the rounds' worker/review outcomes. -/
def facadeResult (decompose : String → List String)
    (assign : Proposition → Verdict) (c : Claim) :
    Except CoreError (Verdict × List Verdict) :=
  match extract decompose c with
  | .error e => .error e
  | .ok ps => .ok (finalVerdict (ps.map assign))

/-- Modelled from the spec: the fixed role identifiers of §4.1
(`boss`, `manager_1`, `worker_<k>`, `supervisor_1`). -/
inductive Role where
  | boss
  | manager_1
  | supervisor_1
  | worker (k : Nat)
deriving DecidableEq, Repr

/-- Modelled from the spec: parsing a role identifier string (§4.1);
`worker_<k>` is accepted for `1 ≤ k ≤ worker_count`. -/
def parseRole (s : String) : Option Role :=
  if s = "boss" then some .boss
  else if s = "manager_1" then some .manager_1
  else if s = "supervisor_1" then some .supervisor_1
  else if s.startsWith "worker_" then
    match (s.drop 7).toNat? with
    | some k => if 1 ≤ k ∧ k ≤ worker_count then some (.worker k) else none
    | none => none
  else none

/-- Modelled from the spec: the typed payload shapes of §4.1, with field
names as the prompts of `get_prompt-checkpoint.py` (lines 67-144,
195-210, 295-323) spell them. -/
inductive PayloadShape where
  | task_assignment
  | worker_submission
  | review_revision
  | review_approval
  | final_report
deriving DecidableEq, Repr

/-- The field names each payload shape requires. -/
def shapeFields : PayloadShape → List String
  | .task_assignment => ["worker_id", "task"]
  | .worker_submission => ["worker_id", "task", "worker_answer", "findings"]
  | .review_revision => ["issues_found", "supervisor_advise"]
  | .review_approval => ["worker_id", "task", "report_from_worker"]
  | .final_report => ["verdict", "report"]

/-- Two key lists carry the same key set (mutual membership). -/
def sameKeys (a b : List String) : Bool :=
  a.all (· ∈ b) && b.all (· ∈ a)

/-- Modelled from the spec: matching a message's field dictionary
against the typed payload shapes; `none` when it matches no shape. -/
def payloadShapeOf (m : List (String × String)) : Option PayloadShape :=
  [PayloadShape.task_assignment, .worker_submission, .review_revision,
    .review_approval, .final_report].find?
    (fun sh => sameKeys (m.map (·.1)) (shapeFields sh))

/-- Modelled from the spec: a raw inter-role message before validation —
each of the three envelope parts may be missing, and the message body is
an untyped field dictionary. -/
structure RawEnvelope where
  sender : Option String
  receiver : Option String
  message : Option (List (String × String))
deriving DecidableEq, Repr

/-- Modelled from the spec: a validated envelope (§4.1): sender and
receiver are fixed role identifiers and the message matches one typed
payload shape. -/
structure Envelope where
  sender : Role
  receiver : Role
  shape : PayloadShape
  fields : List (String × String)
deriving DecidableEq, Repr

/-- Modelled from the spec: the Message Envelope & Schema Validator
(§4.1), absent from the repository's code.  Pure validation: a malformed
message fails with a `SchemaError` naming the missing or invalid field,
checked in the order sender, receiver, message. -/
def validateEnvelope (e : RawEnvelope) : Except CoreError Envelope :=
  match e.sender with
  | none => .error (.SchemaError "sender")
  | some s =>
    match parseRole s with
    | none => .error (.SchemaError "sender")
    | some sr =>
      match e.receiver with
      | none => .error (.SchemaError "receiver")
      | some r =>
        match parseRole r with
        | none => .error (.SchemaError "receiver")
        | some rr =>
          match e.message with
          | none => .error (.SchemaError "message")
          | some m =>
            match payloadShapeOf m with
            | none => .error (.SchemaError "message")
            | some sh => .ok { sender := sr, receiver := rr, shape := sh, fields := m }

/-- The named field of a raw envelope is missing or invalid — what a
`SchemaError` is allowed to report. -/
def fieldMissingOrInvalid (e : RawEnvelope) (f : String) : Prop :=
  (f = "sender" ∧ (e.sender = none ∨ ∃ s, e.sender = some s ∧ parseRole s = none))
  ∨ (f = "receiver" ∧
      (e.receiver = none ∨ ∃ r, e.receiver = some r ∧ parseRole r = none))
  ∨ (f = "message" ∧
      (e.message = none ∨ ∃ m, e.message = some m ∧ payloadShapeOf m = none))

end Core


open Core

/-- C8: for every proposition and round, calling `recordFinding` twice
with the same (round, propositionId, evidenceRefs) leaves the session
equal to the result of calling it once — no evidence entry is
duplicated. -/
theorem recordFinding_idempotent (round pid : Nat) (evidenceRefs : List String)
    (partialVerdict : Verdict) (s : Session) :
    recordFinding round pid evidenceRefs partialVerdict
        (recordFinding round pid evidenceRefs partialVerdict s)
      = recordFinding round pid evidenceRefs partialVerdict s := by
  by_cases h : (round, pid) ∈ s.recorded
  · simp [recordFinding, h]
  · simp [recordFinding, h]

/-- C10 counterexample: the claim says `get_mime_type` returns the fixed
string `audio/wav` for every one of the five audio extensions, but the
`single_as_multi` checkpoint version cited by the claim returns
`audio/mp3` on the filename `voice.mp3`. -/
theorem get_mime_type_multi_mp3_cex :
    SingleAsMulti.get_mime_type "voice.mp3" = "audio/mp3"
    ∧ SingleAsMulti.get_mime_type "voice.mp3" ≠ "audio/wav" := by
  constructor
  · decide
  · decide

/-- C10 (amended): both `get_mime_type` functions are total; on every
filename the `single_agent.py` version behaves exactly as the claim
states (jpg/jpeg → image/jpeg, png → image/png, each of the five audio
extensions → the fixed string audio/wav, everything else — including
filenames whose dot-split tail matches no known extension —
application/octet-stream), while the `single_as_multi` checkpoint
version differs only in preserving the audio extension as
`audio/<ext>`. -/
theorem get_mime_type_characterization (filename : String) :
    SingleAgent.get_mime_type filename = MimeClaim.claimedMimeSingle filename
    ∧ SingleAsMulti.get_mime_type filename = MimeClaim.claimedMimeMulti filename :=
  ⟨rfl, rfl⟩

/-- C9 counterexample: the system-prompt configuration is not immutable
per-session state: starting from the shipped `SYSTEM_PROMPT`, an
interleaved `update_prompt` call changes the request a subsequent
`check_scam_report` run sends for the same input. -/
theorem update_prompt_interference_cex :
    SingleAgent.check_scam_report_request
        ((SingleAgent.update_prompt
          { SYSTEM_PROMPT := SingleAgent.SYSTEM_PROMPT } "A").1) "hi"
      ≠ SingleAgent.check_scam_report_request
          { SYSTEM_PROMPT := SingleAgent.SYSTEM_PROMPT } "hi" := by
  intro hEq
  have h2 : ("A" : String) = SingleAgent.SYSTEM_PROMPT :=
    congrArg SingleAgent.GenerateRequest.system_instruction hEq
  simp [SingleAgent.SYSTEM_PROMPT] at h2

/-- C9 (amended): `SYSTEM_PROMPT` is a shared mutable module-level
global: `update_prompt` replaces it, and `check_scam_report` reads it at
call time, so interleaving an update carrying a different prompt text
between two runs on the same input changes the later run's request —
cross-run interference through prompt state. -/
theorem update_prompt_changes_request (st : SingleAgent.PromptState)
    (p text : String) (h : p ≠ st.SYSTEM_PROMPT) :
    SingleAgent.check_scam_report_request ((SingleAgent.update_prompt st p).1) text
      ≠ SingleAgent.check_scam_report_request st text := by
  intro hEq
  exact h (congrArg SingleAgent.GenerateRequest.system_instruction hEq)

/-- Witness for the amended C9 theorem at a concrete state, update and
input. -/
theorem update_prompt_changes_request_witness :
    SingleAgent.check_scam_report_request
        ((SingleAgent.update_prompt { SYSTEM_PROMPT := "A" } "B").1) "hi"
      ≠ SingleAgent.check_scam_report_request { SYSTEM_PROMPT := "A" } "hi" :=
  update_prompt_changes_request { SYSTEM_PROMPT := "A" } "B" "hi" (by decide)

/-- The computational aggregation agrees with the claim's declarative
four-case rule. -/
theorem overallVerdict_eq_claim (vs : List Verdict) :
    overallVerdict vs = overallVerdictClaim vs := by
  simp only [overallVerdict, overallVerdictClaim, Bool.and_eq_true,
    List.all_eq_true, List.any_eq_true, Bool.or_eq_true, beq_iff_eq,
    decide_eq_true_eq]
  split_ifs with h1 h2 h3 h4 h4 <;> try rfl
  · exfalso
    apply h4
    refine ⟨h3.1, h3.2, ?_, h2⟩
    push_neg at h1
    obtain ⟨v, hv, hvne⟩ := h1
    exact ⟨v, hv, (h3.1 v hv).resolve_left hvne⟩
  · exact absurd ⟨h4.1, h4.2.1⟩ h3

/-- C1: the overall verdict returned by `finalVerdict` is a pure
function of the per-proposition verdicts, computed by the rule: all
`TRUE` → `TRUE`; any `FALSE` → `FALSE`; a mixture of `TRUE` and
`UNDETERMINED` with no `FALSE` → `MIXED`; every other case →
`UNDETERMINED`; the per-proposition verdicts are returned unchanged. -/
theorem finalVerdict_matches_claim_rule (vs : List Verdict) :
    finalVerdict vs = (overallVerdictClaim vs, vs) := by
  simp [finalVerdict, overallVerdict_eq_claim]

/-- The coordinator's loop never moves the round counter past the cap:
from any round at most `cap`, it finalizes at a round at most `cap`. -/
theorem coordRun_le (cap : Nat) (oracle : Nat → Bool) :
    ∀ fuel r, r ≤ cap → coordRun cap oracle fuel r ≤ cap := by
  intro fuel
  induction fuel with
  | zero => intro r h; simpa [coordRun] using h
  | succ n ih =>
    intro r h
    unfold coordRun
    split_ifs with hc
    · exact ih (r + 1) hc.2
    · exact h

/-- A sum of `n` terms each at most `c` is at most `n * c`. -/
theorem sumUpTo_le {f : Nat → Nat} {c : Nat} (h : ∀ i, f i ≤ c) :
    ∀ n, sumUpTo f n ≤ n * c := by
  intro n
  induction n with
  | zero => simp [sumUpTo]
  | succ m ih =>
    have hstep : sumUpTo f (m + 1) = sumUpTo f m + f m := by
      simp [sumUpTo, List.range_succ]
    have := h m
    calc sumUpTo f (m + 1) = sumUpTo f m + f m := hstep
    _ ≤ m * c + c := Nat.add_le_add ih this
    _ = (m + 1) * c := by ring

/-- C2: for every session the Round Coordinator reaches `FINALIZING`
within at most `roundCap` rounds (so the facade's result operation
returns after bounded work and never hangs), and the total work measured
in revision cycles is bounded by round cap × revision cap × worker
count. -/
theorem coordinator_terminates_within_roundCap (cap wc rc : Nat)
    (oracle : Nat → Bool) (revs : Nat → Nat → Nat)
    (hcap : 1 ≤ cap) (hrev : ∀ r w, revs r w ≤ rc) :
    finalizingRound cap oracle ≤ cap
    ∧ sessionWork cap wc oracle revs ≤ cap * rc * wc := by
  have h1 : finalizingRound cap oracle ≤ cap := coordRun_le cap oracle cap 1 hcap
  refine ⟨h1, ?_⟩
  have hinner : ∀ i, sumUpTo (fun w => revs (i + 1) (w + 1)) wc ≤ wc * rc :=
    fun i => sumUpTo_le (fun w => hrev (i + 1) (w + 1)) wc
  have h2 : sessionWork cap wc oracle revs ≤ finalizingRound cap oracle * (wc * rc) :=
    sumUpTo_le hinner (finalizingRound cap oracle)
  calc sessionWork cap wc oracle revs
      ≤ finalizingRound cap oracle * (wc * rc) := h2
    _ ≤ cap * (wc * rc) := Nat.mul_le_mul_right (wc * rc) h1
    _ = cap * rc * wc := by ring

/-- Witness for C2 at the spec's default configuration: round cap 3,
worker count 5, revision cap 2, a coverage oracle that always reports
gaps, and every revision count at the cap. -/
theorem coordinator_terminates_witness :
    finalizingRound roundCap (fun _ => true) ≤ roundCap
    ∧ sessionWork roundCap worker_count (fun _ => true) (fun _ _ => revisionCap)
        ≤ roundCap * revisionCap * worker_count :=
  coordinator_terminates_within_roundCap roundCap worker_count revisionCap
    (fun _ => true) (fun _ _ => revisionCap) (by decide) (fun _ _ => Nat.le_refl _)

/-- C3: for every accepted claim the number of Propositions created at
extraction equals min(5, extracted_count), and no subsequent session
operation (`recordFinding`) changes the size of the Proposition set. -/
theorem proposition_count_fixed :
    (∀ (decompose : String → List String) (c : Claim) (ps : List Proposition),
      extract decompose c = .ok ps → ps.length = min 5 (decompose c.text).length)
    ∧ (∀ (round pid : Nat) (refs : List String) (v : Verdict) (s : Session),
      (recordFinding round pid refs v s).props.length = s.props.length) := by
  constructor
  · intro d c ps h
    unfold extract at h
    by_cases ht : c.text = ""
    · rw [if_pos ht] at h
      simp at h
    · rw [if_neg ht] at h
      simp only [Except.ok.injEq] at h
      subst h
      rw [List.length_map, List.enum_length, List.length_take]
      rfl
  · intro round pid refs v s
    unfold recordFinding
    split_ifs <;> simp

/-- C4: for every claim whose text is empty, extraction fails with
`ExtractionError`, the session runs no round at all, and the facade
returns an error and never a report. -/
theorem empty_claim_aborts (decompose : String → List String)
    (oracle : Nat → Bool) (assign : Proposition → Verdict) (c : Claim)
    (h : c.text = "") :
    extract decompose c = .error .ExtractionError
    ∧ facadeResult decompose assign c = .error .ExtractionError
    ∧ sessionRounds decompose oracle c = 0 := by
  have he : extract decompose c = .error .ExtractionError := by simp [extract, h]
  exact ⟨he, by simp [facadeResult, he], by simp [sessionRounds, he]⟩

/-- Witness for C4 at a concrete empty-text claim. -/
theorem empty_claim_aborts_witness :
    extract (fun _ => []) ⟨"", []⟩ = .error .ExtractionError
    ∧ facadeResult (fun _ => []) (fun _ => .TRUE) ⟨"", []⟩ = .error .ExtractionError
    ∧ sessionRounds (fun _ => []) (fun _ => false) ⟨"", []⟩ = 0 :=
  empty_claim_aborts (fun _ => []) (fun _ => false) (fun _ => .TRUE) ⟨"", []⟩ rfl

/-- The Review Gate never pushes a Task's revision count past the cap:
from any count at most `cap`, any decision sequence keeps it at most
`cap`. -/
theorem reviewGateRun_le (cap : Nat) (ds : List ReviewDecision) :
    ∀ s, s ≤ cap → (reviewGateRun cap s ds).1 ≤ cap := by
  induction ds with
  | nil => intro s h; simpa [reviewGateRun] using h
  | cons d rest ih =>
    intro s h
    cases d with
    | APPROVE =>
      simpa [reviewGateRun, reviewGateStep] using ih s h
    | REVISE issues =>
      by_cases hlt : s < cap
      · simpa [reviewGateRun, reviewGateStep, hlt] using ih (s + 1) hlt
      · simpa [reviewGateRun, reviewGateStep, hlt] using ih s h

/-- C6: once a Task's revision count has reached the cap, a further
revision request is overridden by the Review Gate to a forced
`APPROVE_WITH_CAVEAT` carrying the unresolved issues; starting from a
fresh Task the revision count never exceeds the cap for any decision
sequence; and the gate never surfaces an error (in particular never
`RevisionCapExceeded`) as a session failure. -/
theorem reviewGate_cap_override (cap s : Nat) (ds : List ReviewDecision)
    (issues : List String) (h : s = cap) :
    reviewGateStep cap s (.REVISE issues) = .ok (s, .APPROVE_WITH_CAVEAT issues)
    ∧ (reviewGateRun cap 0 ds).1 ≤ cap
    ∧ (∀ r d, ∃ out, reviewGateStep cap r d = .ok out) := by
  subst h
  refine ⟨by simp [reviewGateStep], reviewGateRun_le s ds 0 (Nat.zero_le s), ?_⟩
  intro r d
  cases d with
  | APPROVE => exact ⟨(r, .APPROVED), rfl⟩
  | REVISE is =>
    by_cases hlt : r < s
    · exact ⟨(r + 1, .REVISION_REQUESTED is), by simp [reviewGateStep, hlt]⟩
    · exact ⟨(r, .APPROVE_WITH_CAVEAT is), by simp [reviewGateStep, hlt]⟩

/-- Witness for C6 at the default cap 2, with a Task already at the cap
and a reviewer that keeps requesting revisions. -/
theorem reviewGate_cap_override_witness :
    reviewGateStep revisionCap revisionCap (.REVISE ["only one source"])
      = .ok (revisionCap, .APPROVE_WITH_CAVEAT ["only one source"])
    ∧ (reviewGateRun revisionCap 0
        [.REVISE ["a"], .REVISE ["b"], .REVISE ["c"], .REVISE ["d"]]).1 ≤ revisionCap
    ∧ (∀ r d, ∃ out, reviewGateStep revisionCap r d = .ok out) :=
  reviewGate_cap_override revisionCap revisionCap
    [.REVISE ["a"], .REVISE ["b"], .REVISE ["c"], .REVISE ["d"]]
    ["only one source"] rfl

/-- C5: for every round planned over a non-empty set of (distinct)
unresolved propositions, `planRound` produces exactly `wc` tasks — one
per worker slot — and whenever some unresolved proposition is assigned
to two different workers in the round, every unresolved proposition is
already assigned to some worker (duplication only as a fallback). -/
theorem planRound_exact_and_nonoverlapping (wc : Nat) (unresolved : List Nat)
    (ts : List Task) (hne : unresolved ≠ []) (hnd : unresolved.Nodup)
    (hplan : planRound wc unresolved = .ok ts) :
    ts.length = wc
    ∧ (∀ t1 ∈ ts, ∀ t2 ∈ ts, t1.slot ≠ t2.slot → t1.prop = t2.prop →
        ∀ q ∈ unresolved, ∃ t ∈ ts, t.prop = q) := by
  have hlen : 0 < unresolved.length := List.length_pos.mpr hne
  unfold planRound at hplan
  rw [if_neg hne] at hplan
  simp only [Except.ok.injEq] at hplan
  subst hplan
  refine ⟨by simp, ?_⟩
  intro t1 ht1 t2 ht2 hslot hprop q hq
  simp only [List.mem_map, List.mem_range] at ht1 ht2
  obtain ⟨w1, hw1, rfl⟩ := ht1
  obtain ⟨w2, hw2, rfl⟩ := ht2
  have hw12 : w1 ≠ w2 := fun h => hslot (by rw [h])
  have hprop2 : assignedProp unresolved w1 = assignedProp unresolved w2 := hprop
  have hi1 : w1 % unresolved.length < unresolved.length := Nat.mod_lt _ hlen
  have hi2 : w2 % unresolved.length < unresolved.length := Nat.mod_lt _ hlen
  have hg1 : assignedProp unresolved w1 = unresolved.get ⟨w1 % unresolved.length, hi1⟩ := by
    simp [assignedProp, List.getD_eq_getElem?_getD, List.getElem?_eq_getElem hi1,
      List.get_eq_getElem]
  have hg2 : assignedProp unresolved w2 = unresolved.get ⟨w2 % unresolved.length, hi2⟩ := by
    simp [assignedProp, List.getD_eq_getElem?_getD, List.getElem?_eq_getElem hi2,
      List.get_eq_getElem]
  have heq : unresolved.get ⟨w1 % unresolved.length, hi1⟩
      = unresolved.get ⟨w2 % unresolved.length, hi2⟩ := by
    rw [← hg1, ← hg2]; exact hprop2
  have hmod : w1 % unresolved.length = w2 % unresolved.length :=
    congrArg Fin.val ((List.Nodup.get_inj_iff hnd).mp heq)
  have hle : unresolved.length ≤ max w1 w2 := by
    rcases Nat.lt_or_ge w1 w2 with hlt | hge
    · have hdvd : unresolved.length ∣ w2 - w1 :=
        (Nat.modEq_iff_dvd' (Nat.le_of_lt hlt)).mp hmod
      have := Nat.le_of_dvd (by omega) hdvd
      omega
    · rcases Nat.lt_or_ge w2 w1 with hlt2 | hge2
      · have hdvd : unresolved.length ∣ w1 - w2 :=
          (Nat.modEq_iff_dvd' (Nat.le_of_lt hlt2)).mp hmod.symm
        have := Nat.le_of_dvd (by omega) hdvd
        omega
      · omega
  obtain ⟨⟨j, hj⟩, hget⟩ := List.mem_iff_get.mp hq
  have hjwc : j < wc := by omega
  refine ⟨⟨j + 1, assignedProp unresolved j⟩, ?_, ?_⟩
  · simp only [List.mem_map, List.mem_range]
    exact ⟨j, hjwc, rfl⟩
  · show assignedProp unresolved j = q
    rw [← hget]
    have hj' : j % unresolved.length = j := Nat.mod_eq_of_lt hj
    simp [assignedProp, hj', List.getD_eq_getElem?_getD, List.getElem?_eq_getElem hj,
      List.get_eq_getElem]

/-- Witness for C5: the default worker count 5 dispatched over two
distinct unresolved propositions. -/
theorem planRound_exact_and_nonoverlapping_witness :
    ([⟨1, 10⟩, ⟨2, 20⟩, ⟨3, 10⟩, ⟨4, 20⟩, ⟨5, 10⟩] : List Task).length = worker_count
    ∧ (∀ t1 ∈ ([⟨1, 10⟩, ⟨2, 20⟩, ⟨3, 10⟩, ⟨4, 20⟩, ⟨5, 10⟩] : List Task),
        ∀ t2 ∈ ([⟨1, 10⟩, ⟨2, 20⟩, ⟨3, 10⟩, ⟨4, 20⟩, ⟨5, 10⟩] : List Task),
        t1.slot ≠ t2.slot → t1.prop = t2.prop →
        ∀ q ∈ ([10, 20] : List Nat),
          ∃ t ∈ ([⟨1, 10⟩, ⟨2, 20⟩, ⟨3, 10⟩, ⟨4, 20⟩, ⟨5, 10⟩] : List Task),
            t.prop = q) :=
  planRound_exact_and_nonoverlapping worker_count [10, 20]
    [⟨1, 10⟩, ⟨2, 20⟩, ⟨3, 10⟩, ⟨4, 20⟩, ⟨5, 10⟩]
    (by decide) (by decide) rfl

/-- C7: the Message Envelope validator accepts a message exactly when it
carries sender, receiver and message with both role strings parsing to
fixed role identifiers and the message matching one of the typed payload
shapes; every rejection is a `SchemaError` naming the missing or invalid
field.  Validation is a pure function: it returns either a fully
validated `Envelope` or an error, so no caller can proceed with a
partially-validated message. -/
theorem validateEnvelope_spec :
    (∀ (e : RawEnvelope) (env : Envelope), validateEnvelope e = .ok env →
      (∃ s, e.sender = some s ∧ parseRole s = some env.sender)
      ∧ (∃ r, e.receiver = some r ∧ parseRole r = some env.receiver)
      ∧ (∃ m, e.message = some m ∧ payloadShapeOf m = some env.shape ∧ env.fields = m))
    ∧ (∀ (e : RawEnvelope) (err : CoreError), validateEnvelope e = .error err →
      ∃ f, err = .SchemaError f ∧ f ∈ ["sender", "receiver", "message"]
        ∧ fieldMissingOrInvalid e f) := by
  constructor
  · rintro ⟨so, ro, mo⟩ env h
    cases so with
    | none => simp [validateEnvelope] at h
    | some s =>
      cases hs : parseRole s with
      | none => simp [validateEnvelope, hs] at h
      | some sr =>
        cases ro with
        | none => simp [validateEnvelope, hs] at h
        | some r =>
          cases hr : parseRole r with
          | none => simp [validateEnvelope, hs, hr] at h
          | some rr =>
            cases mo with
            | none => simp [validateEnvelope, hs, hr] at h
            | some m =>
              cases hm : payloadShapeOf m with
              | none => simp [validateEnvelope, hs, hr, hm] at h
              | some sh =>
                simp only [validateEnvelope, hs, hr, hm, Except.ok.injEq] at h
                subst h
                exact ⟨⟨s, rfl, hs⟩, ⟨r, rfl, hr⟩, ⟨m, rfl, hm, rfl⟩⟩
  · rintro ⟨so, ro, mo⟩ err h
    cases so with
    | none =>
      simp only [validateEnvelope, Except.error.injEq] at h
      exact ⟨"sender", h.symm, by simp, Or.inl ⟨rfl, Or.inl rfl⟩⟩
    | some s =>
      cases hs : parseRole s with
      | none =>
        simp only [validateEnvelope, hs, Except.error.injEq] at h
        exact ⟨"sender", h.symm, by simp, Or.inl ⟨rfl, Or.inr ⟨s, rfl, hs⟩⟩⟩
      | some sr =>
        cases ro with
        | none =>
          simp only [validateEnvelope, hs, Except.error.injEq] at h
          exact ⟨"receiver", h.symm, by simp, Or.inr (Or.inl ⟨rfl, Or.inl rfl⟩)⟩
        | some r =>
          cases hr : parseRole r with
          | none =>
            simp only [validateEnvelope, hs, hr, Except.error.injEq] at h
            exact ⟨"receiver", h.symm, by simp,
              Or.inr (Or.inl ⟨rfl, Or.inr ⟨r, rfl, hr⟩⟩)⟩
          | some rr =>
            cases mo with
            | none =>
              simp only [validateEnvelope, hs, hr, Except.error.injEq] at h
              exact ⟨"message", h.symm, by simp, Or.inr (Or.inr ⟨rfl, Or.inl rfl⟩)⟩
            | some m =>
              cases hm : payloadShapeOf m with
              | none =>
                simp only [validateEnvelope, hs, hr, hm, Except.error.injEq] at h
                exact ⟨"message", h.symm, by simp,
                  Or.inr (Or.inr ⟨rfl, Or.inr ⟨m, rfl, hm⟩⟩)⟩
              | some sh =>
                simp [validateEnvelope, hs, hr, hm] at h
